import Mathlib

/-!
Verification development for the zenith-editor repository.

Part 1 models the interactive image-resize controller of the `ImageResize`
component (the `handleMouseMove` pointer handler and the Ctrl+0 branch of
`handleKeyDown`).  JavaScript numbers are modelled by the rationals; the
JavaScript `Math.round` is `fun q => Int.floor (q + 1/2)` (round half toward
positive infinity), `Math.max`/`Math.min` are `max`/`min`, and `Math.abs` is
`abs`.  Rational division by zero evaluates to 0 where JavaScript would give
Infinity; either way the quotient is a degenerate dimension, and the model
is used at a zero denominator only to show that the code performs the
division (or, for the n/s handles, the multiplication by zero, where the
model and JavaScript agree exactly) unconditionally.

Part 2 (further down) models the `FontLoader` utility from
`packages/zenith-editor/src/utils/fontLoader.ts`.
-/

/-- Current or anchor dimensions of the resized media element
(`dimensions` / `startDimensions` component state). -/
structure Dimensions where
  width : ℚ
  height : ℚ
deriving DecidableEq, Repr

/-- The eight resize handles (compass positions). -/
inductive Handle where
  | n | ne | e | se | s | sw | w | nw
deriving DecidableEq, Repr

/-- The source tests `['se', 'sw', 'ne', 'nw'].includes(resizeHandle)`. -/
def isCorner : Handle → Bool
  | .se | .sw | .ne | .nw => true
  | _ => false

/-- JavaScript `Math.round`: round half toward positive infinity. -/
def jsRound (q : ℚ) : ℤ := ⌊q + 1 / 2⌋

/-- The `switch (resizeHandle)` block of `handleMouseMove`: the raw
`(newWidth, newHeight)` pair before the shift-key constraint and rounding.
Corner handles clamp both axes at 50; `e`/`w` clamp the width and derive the
height as `newWidth / aspectRatio`; `n`/`s` clamp the height and derive the
width as `newHeight * aspectRatio`.  The parameter `aspect` is the
component's `aspectRatio` state. -/
def rawDims (h : Handle) (start : Dimensions) (aspect dx dy : ℚ) : ℚ × ℚ :=
  match h with
  | .se => (max 50 (start.width + dx), max 50 (start.height + dy))
  | .sw => (max 50 (start.width - dx), max 50 (start.height + dy))
  | .ne => (max 50 (start.width + dx), max 50 (start.height - dy))
  | .nw => (max 50 (start.width - dx), max 50 (start.height - dy))
  | .e => (max 50 (start.width + dx), max 50 (start.width + dx) / aspect)
  | .w => (max 50 (start.width - dx), max 50 (start.width - dx) / aspect)
  | .n => (max 50 (start.height - dy) * aspect, max 50 (start.height - dy))
  | .s => (max 50 (start.height + dy) * aspect, max 50 (start.height + dy))

/-- One `handleMouseMove` step: the per-handle raw dimensions, then the
shift-key aspect lock for corner handles (`if (Math.abs(deltaX) >
Math.abs(deltaY))` the width drives, otherwise the height drives), then
`Math.round` on both axes before `setDimensions`. -/
def handleMouseMove (h : Handle) (start : Dimensions) (aspect dx dy : ℚ)
    (shift : Bool) : Dimensions :=
  let base := rawDims h start aspect dx dy
  let c :=
    if shift && isCorner h then
      if |dx| > |dy| then (base.1, base.1 / aspect)
      else (base.2 * aspect, base.2)
    else base
  ⟨((jsRound c.1 : ℤ) : ℚ), ((jsRound c.2 : ℤ) : ℚ)⟩

/-- A drag gesture: the anchor is fixed at pointer-down, and every
pointer-move event recomputes the dimensions from the anchor and the current
deltas alone, so the dimensions held after the i-th `update` call are a
function of the i-th move. -/
def runGesture (h : Handle) (start : Dimensions) (aspect : ℚ)
    (moves : List (ℚ × ℚ × Bool)) : List Dimensions :=
  moves.map (fun m => handleMouseMove h start aspect m.1 m.2.1 m.2.2)

/-- The Ctrl+0 branch of `handleKeyDown`: `newWidth = Math.min(naturalWidth,
600)`, `newHeight = newWidth / aspectRatio`, stored without rounding. -/
def resetToNatural (naturalWidth aspect : ℚ) : Dimensions :=
  let newWidth := min naturalWidth 600
  ⟨newWidth, newWidth / aspect⟩

/-! ### Part 2: the `FontLoader` utility (`fontLoader.ts`)

`loadFont` is an async method; its synchronous head (the already-loaded
check, the in-flight check, the capability check and the insertion of the
new loading promise) runs before the first await and is modelled by
`loadFontStart`.  The asynchronous settlement of a started load is modelled
by an outcome environment `o : Nat → LoadOutcome` mapping each promise id
to how the race between `fontFace.load()` and the timeout timer settled;
`performFontLoad`'s try/catch is the function of that outcome.  A caller
that attaches to an in-flight promise simply receives that promise's value
and runs no continuation (the early `return` at the in-flight check skips
the try/finally), so only the starter updates `loadedFonts` and clears the
in-flight entry (`loadFontFinish`). -/

/-- A font descriptor (`CustomFontDefinition`).  Optional attributes are
`Option`; the weight is stringified by the source, so it is a `String`. -/
structure CustomFontDefinition where
  fontFamily : String
  src : String
  format : Option String
  fontWeight : Option String
  fontStyle : Option String
  fontStretch : Option String
  unicodeRange : Option String
  fontDisplay : Option String
deriving DecidableEq, Repr

/-- `FontLoadStatus`. -/
inductive FontLoadStatus where
  | loading | loaded | error | timeout
deriving DecidableEq, Repr

/-- `FontLoadResult`. -/
structure FontLoadResult where
  fontFamily : String
  status : FontLoadStatus
  error : Option String
deriving DecidableEq, Repr

/-- The `FontFace` object built by `loadFont` and stored in `loadedFonts`
(family, source string, and the descriptor options with their defaults). -/
structure FontFaceRec where
  family : String
  source : String
  weight : String
  style : String
  stretch : String
  unicodeRange : Option String
  display : String
deriving DecidableEq, Repr

/-- JavaScript `String.prototype.split` with a one-character separator. -/
def splitChar (sep : Char) : List Char → List (List Char)
  | [] => [[]]
  | c :: cs =>
    match splitChar sep cs with
    | [] => [[]]
    | h :: t => if c = sep then [] :: h :: t else (c :: h) :: t

/-- `src.split('.').pop()?.toLowerCase()` from `detectFontFormat` (the
split of a nonempty separator is never empty, so `pop` always yields the
last piece). -/
def extensionOf (src : String) : String :=
  ⟨((splitChar '.' src.data).getLastD []).map Char.toLower⟩

/-- `FontLoader.detectFontFormat`: map the file extension of the source URL
to a font format, defaulting to truetype. -/
def detectFontFormat (src : String) : String :=
  let ext := extensionOf src
  if ext = "woff2" then "woff2"
  else if ext = "woff" then "woff"
  else if ext = "ttf" then "truetype"
  else if ext = "otf" then "opentype"
  else if ext = "eot" then "embedded-opentype"
  else "truetype"

/-- `FontLoader.createFontSource`: the source string, using the explicit
format when given and the auto-detected one otherwise. -/
def createFontSource (src : String) (format : Option String) : String :=
  "url(\"" ++ src ++ "\") format(\"" ++ format.getD (detectFontFormat src) ++ "\")"

/-- The `FontFace` constructed from a descriptor, with the source's
destructuring defaults (`normal` weight/style/stretch, `swap` display). -/
def mkFontFace (d : CustomFontDefinition) : FontFaceRec :=
  ⟨d.fontFamily, createFontSource d.src d.format, d.fontWeight.getD "normal",
   d.fontStyle.getD "normal", d.fontStretch.getD "normal", d.unicodeRange,
   d.fontDisplay.getD "swap"⟩

/-- How the race between `fontFace.load()` and the timeout timer settles:
the load resolves first, the load rejects first with a message, or the
timer fires first (its rejection message is the timeout message). -/
inductive LoadOutcome where
  | success
  | failure (msg : String)
  | timedOut
deriving DecidableEq, Repr

/-- Needle-at-head test used by the substring search below. -/
def leadsWith : List Char → List Char → Bool
  | [], _ => true
  | _ :: _, [] => false
  | a :: as, b :: bs => a == b && leadsWith as bs

/-- Contiguous substring search over character lists. -/
def hasSub (needle : List Char) : List Char → Bool
  | [] => leadsWith needle []
  | c :: rest => leadsWith needle (c :: rest) || hasSub needle rest

/-- JavaScript `hay.includes(needle)`. -/
def containsSubstr (hay needle : String) : Bool := hasSub needle.data hay.data

/-- The timer's rejection message
`Font loading timeout after ${timeout}ms`. -/
def timeoutMessage (t : Nat) : String :=
  "Font loading timeout after " ++ (Nat.repr t ++ "ms")

/-- The catch block's classification:
`errorMessage.includes('timeout') ? 'timeout' : 'error'`. -/
def classifyStatus (msg : String) : FontLoadStatus :=
  if containsSubstr msg "timeout" then .timeout else .error

/-- `FontLoader.performFontLoad` as a function of the race outcome: success
yields `loaded`, a rejection is caught and classified by its message. -/
def performFontLoad (d : CustomFontDefinition) (t : Nat)
    (outcome : LoadOutcome) : FontLoadResult :=
  match outcome with
  | .success => ⟨d.fontFamily, .loaded, none⟩
  | .failure msg => ⟨d.fontFamily, classifyStatus msg, some msg⟩
  | .timedOut => ⟨d.fontFamily, classifyStatus (timeoutMessage t),
      some (timeoutMessage t)⟩

/-- An in-flight entry of `loadingPromises`: the promise id, the descriptor
that started it and the timeout it races against. -/
structure PromiseRec where
  pid : Nat
  defn : CustomFontDefinition
  timeout : Nat
deriving DecidableEq, Repr

/-- The `FontLoader` instance state: the `loadedFonts` map, the
`loadingPromises` map and a fresh-promise-id counter. -/
structure LoaderState where
  loadedFonts : List (String × FontFaceRec)
  loadingPromises : List (String × PromiseRec)
  nextPid : Nat
deriving DecidableEq, Repr

/-- A freshly constructed `FontLoader`. -/
def emptyLoader : LoaderState := ⟨[], [], 0⟩

/-- What the synchronous head of `loadFont` decides to do. -/
inductive LoadPlan where
  | alreadyLoaded (family : String)
  | attach (pr : PromiseRec)
  | unsupported (family : String)
  | startNew (pr : PromiseRec)
deriving DecidableEq, Repr

/-- The unsupported-environment error message. -/
def unsupportedMsg : String := "FontFace API is not supported in this browser"

/-- The synchronous head of `loadFont`, in the source's branch order:
already-loaded check, in-flight check, capability check, then creation and
registration of the new loading promise. -/
def loadFontStart (supported : Bool) (s : LoaderState)
    (d : CustomFontDefinition) (t : Nat) : LoadPlan × LoaderState :=
  if (s.loadedFonts.lookup d.fontFamily).isSome then
    (.alreadyLoaded d.fontFamily, s)
  else
    match s.loadingPromises.lookup d.fontFamily with
    | some pr => (.attach pr, s)
    | none =>
      if supported then
        let pr : PromiseRec := ⟨s.nextPid, d, t⟩
        (.startNew pr,
         { s with loadingPromises := (d.fontFamily, pr) :: s.loadingPromises,
                  nextPid := s.nextPid + 1 })
      else
        (.unsupported d.fontFamily, s)

/-- The result each caller eventually receives, as a function of its plan:
an attached caller receives the value of the promise it attached to (the
original descriptor and timeout, not its own). -/
def planResult (o : Nat → LoadOutcome) : LoadPlan → FontLoadResult
  | .alreadyLoaded f => ⟨f, .loaded, none⟩
  | .attach pr => performFontLoad pr.defn pr.timeout (o pr.pid)
  | .unsupported f => ⟨f, .error, some unsupportedMsg⟩
  | .startNew pr => performFontLoad pr.defn pr.timeout (o pr.pid)

/-- The starter's continuation after its promise settles: on `loaded` store
the constructed `FontFace` in `loadedFonts`; in all cases the `finally`
block deletes the in-flight entry. -/
def loadFontFinish (s : LoaderState) (d : CustomFontDefinition)
    (result : FontLoadResult) : LoaderState :=
  let keep : String × PromiseRec → Bool := fun p => p.1 != d.fontFamily
  let s' :=
    if result.status = .loaded then
      { s with loadedFonts := (d.fontFamily, mkFontFace d) :: s.loadedFonts }
    else s
  { s' with loadingPromises := s'.loadingPromises.filter keep }

/-- A complete `loadFont` call with no interleaved callers: the synchronous
head, the settlement of the outcome, and (for a starter) the continuation. -/
def loadFont (supported : Bool) (s : LoaderState) (d : CustomFontDefinition)
    (t : Nat) (o : Nat → LoadOutcome) : FontLoadResult × LoaderState :=
  match loadFontStart supported s d t with
  | (.startNew pr, s') =>
    let result := performFontLoad pr.defn pr.timeout (o pr.pid)
    (result, loadFontFinish s' d result)
  | (plan, s') => (planResult o plan, s')

/-- Phase one of `loadFonts` (`loadMany`): `fontDefinitions.map(font =>
this.loadFont(font, options))` runs every call's synchronous head in list
order before any of them awaits, threading the registry state. -/
def loadFontsStarts (supported : Bool) (t : Nat) :
    LoaderState → List CustomFontDefinition → List LoadPlan × LoaderState
  | s, [] => ([], s)
  | s, d :: ds =>
    let (p, s') := loadFontStart supported s d t
    let (ps, s'') := loadFontsStarts supported t s' ds
    (p :: ps, s'')

/-- `FontLoader.loadFonts` (`Promise.all`): the list of results the callers
receive once every started promise has settled per the outcome
environment. -/
def loadFonts (supported : Bool) (s : LoaderState) (t : Nat)
    (o : Nat → LoadOutcome) (ds : List CustomFontDefinition) :
    List FontLoadResult :=
  ((loadFontsStarts supported t s ds).1).map (planResult o)

/-- The promise id a plan's result depends on, if any. -/
def planPid : LoadPlan → Option Nat
  | .attach pr => some pr.pid
  | .startNew pr => some pr.pid
  | _ => none

/-- Sample descriptor used by concrete witnesses. -/
def dA : CustomFontDefinition := ⟨"FontA", "a.woff2", none, none, none, none, none, none⟩

/-- Second sample descriptor used by concrete witnesses. -/
def dB : CustomFontDefinition := ⟨"FontB", "b.ttf", none, none, none, none, none, none⟩

/-- A descriptor with the same family as `dA` but different attributes. -/
def dAalt : CustomFontDefinition :=
  ⟨"FontA", "other.ttf", none, some "700", some "italic", none, none, none⟩

/-- Outcome environment where promise 0 fails and the rest succeed. -/
def oFail : Nat → LoadOutcome := fun q => if q = 0 then .failure "network down" else .success

/-- Outcome environment where every promise succeeds. -/
def oGood : Nat → LoadOutcome := fun _ => .success

/-- A loader state whose registry already holds FontA. -/
def loadedStateA : LoaderState := ⟨[("FontA", mkFontFace dA)], [], 3⟩

theorem le_jsRound_cast {q : ℚ} (hq : 50 ≤ q) : (50 : ℚ) ≤ ((jsRound q : ℤ) : ℚ) := by
  have h : (50 : ℤ) ≤ jsRound q := Int.le_floor.mpr (by push_cast; linarith)
  exact_mod_cast h

theorem jsRound_intCast (z : ℤ) : jsRound ((z : ℚ)) = z := by
  unfold jsRound
  rw [Int.floor_int_add]
  norm_num

theorem corner_noshift_floor (h : Handle) (hc : isCorner h = true)
    (start : Dimensions) (aspect dx dy : ℚ) :
    50 ≤ (handleMouseMove h start aspect dx dy false).width ∧
    50 ≤ (handleMouseMove h start aspect dx dy false).height := by
  cases h <;> simp only [isCorner, Bool.false_eq_true] at hc <;>
    (constructor <;>
      (simp only [handleMouseMove, rawDims, Bool.false_and, Bool.false_eq_true, if_false]
       exact le_jsRound_cast (le_max_left _ _)))

/-- Claim C1 — counterexample: for the east edge handle with anchor
100 × 100, aspect ratio 4 and a zero-delta move, the derived height is
round(100 / 4) = 25 < 50, so the claimed invariant
`width >= 50 && height >= 50` after every update is false. -/
theorem c1_floor_cex :
    ¬ ∀ dm ∈ runGesture .e ⟨100, 100⟩ 4 [(0, 0, false)],
        50 ≤ dm.width ∧ 50 ≤ dm.height := by
  norm_num [runGesture, handleMouseMove, rawDims, isCorner, jsRound]

/-- Claim C1 — amended: after every `update` call only the clamped axis is
guaranteed to satisfy the 50 floor.  For corner handles without the
aspect-lock modifier both axes are clamped, so `width >= 50 && height >= 50`
holds after every update of any gesture; for `e`/`w` handles the width is
clamped, for `n`/`s` the height is clamped, and for shift-constrained
corners the driving axis is clamped, while the aspect-derived axis may fall
below 50. -/
theorem c1_floor_amended (h : Handle) (start : Dimensions) (aspect dx dy : ℚ)
    (shift : Bool) (moves : List (ℚ × ℚ × Bool)) :
    (isCorner h = true → (∀ m ∈ moves, m.2.2 = false) →
      ∀ dm ∈ runGesture h start aspect moves, 50 ≤ dm.width ∧ 50 ≤ dm.height) ∧
    (isCorner h = true → shift = false →
      50 ≤ (handleMouseMove h start aspect dx dy shift).width ∧
      50 ≤ (handleMouseMove h start aspect dx dy shift).height) ∧
    ((h = .e ∨ h = .w) → 50 ≤ (handleMouseMove h start aspect dx dy shift).width) ∧
    ((h = .n ∨ h = .s) → 50 ≤ (handleMouseMove h start aspect dx dy shift).height) ∧
    (isCorner h = true → shift = true →
      (|dx| > |dy| → 50 ≤ (handleMouseMove h start aspect dx dy shift).width) ∧
      (¬ |dx| > |dy| → 50 ≤ (handleMouseMove h start aspect dx dy shift).height)) := by
  refine ⟨?_, ?_, ?_, ?_, ?_⟩
  · intro hc hall dm hdm
    simp only [runGesture, List.mem_map] at hdm
    obtain ⟨m, hm, rfl⟩ := hdm
    have hsh := hall m hm
    rw [hsh]
    exact corner_noshift_floor h hc start aspect m.1 m.2.1
  · intro hc hsh
    subst hsh
    exact corner_noshift_floor h hc start aspect dx dy
  · rintro (rfl | rfl) <;>
      (simp only [handleMouseMove, rawDims, isCorner, Bool.and_false, Bool.false_eq_true, if_false]
       exact le_jsRound_cast (le_max_left _ _))
  · rintro (rfl | rfl) <;>
      (simp only [handleMouseMove, rawDims, isCorner, Bool.and_false, Bool.false_eq_true, if_false]
       exact le_jsRound_cast (le_max_left _ _))
  · intro hc hsh
    subst hsh
    constructor <;> intro hdxy <;>
      cases h <;> simp only [isCorner, Bool.false_eq_true] at hc <;>
        (simp only [handleMouseMove, rawDims, isCorner, Bool.and_self, Bool.true_and, if_true,
           hdxy, if_neg, if_pos]
         exact le_jsRound_cast (le_max_left _ _))

theorem c1_floor_amended_witness :
    50 ≤ (handleMouseMove .se ⟨100, 100⟩ 2 10 3 false).width ∧
    50 ≤ (handleMouseMove .se ⟨100, 100⟩ 2 10 3 false).height :=
  (c1_floor_amended .se ⟨100, 100⟩ 2 10 3 false []).2.1 rfl rfl

/-- Claim C2 — counterexample: with a zero aspect ratio the north-edge
update still derives the width as `newHeight * aspectRatio = 0` and stores
it, so the session's dimensions are updated with a degenerate value; the
claimed guard disabling edge-handle derivation does not exist in the code. -/
theorem c2_degenerate_cex :
    (handleMouseMove .n ⟨100, 100⟩ 0 0 0 false).width = 0 ∧
    (handleMouseMove .n ⟨100, 100⟩ 0 0 0 false).width ≠ 100 := by
  norm_num [handleMouseMove, rawDims, isCorner, jsRound]

/-- Claim C2 — amended: a zero aspect ratio does not disable edge-handle
derivation.  The update derives the dependent axis unconditionally, so
`n`/`s` updates store a degenerate width of 0 (`newHeight * 0`, exactly as
in JavaScript), and `e`/`w` updates divide by the zero ratio; corner-handle
updates without the aspect lock do not consult the aspect ratio and keep
working. -/
theorem c2_degenerate_amended (start : Dimensions) (aspect aspect' dx dy : ℚ)
    (h : Handle) (hc : isCorner h = true) :
    (handleMouseMove .n start 0 dx dy false).width = 0 ∧
    (handleMouseMove .s start 0 dx dy false).width = 0 ∧
    handleMouseMove h start aspect dx dy false =
      handleMouseMove h start aspect' dx dy false := by
  refine ⟨?_, ?_, ?_⟩
  · norm_num [handleMouseMove, rawDims, isCorner, jsRound]
  · norm_num [handleMouseMove, rawDims, isCorner, jsRound]
  · cases h <;> simp only [isCorner, Bool.false_eq_true] at hc <;>
      simp [handleMouseMove, rawDims, isCorner]

theorem c2_degenerate_amended_witness :
    (handleMouseMove .n (⟨100, 100⟩ : Dimensions) 0 0 0 false).width = 0 ∧
    (handleMouseMove .s (⟨100, 100⟩ : Dimensions) 0 0 0 false).width = 0 ∧
    handleMouseMove .se (⟨100, 100⟩ : Dimensions) 0 0 0 false =
      handleMouseMove .se (⟨100, 100⟩ : Dimensions) 7 0 0 false :=
  c2_degenerate_amended ⟨100, 100⟩ 0 7 0 0 .se rfl

/-- Claim C7 — counterexample: `resetToNatural` with natural width 100 and
aspect ratio 3 stores height 100/3 unrounded, which differs from
round(width / aspectRatio) = 33. -/
theorem c7_reset_cex :
    (resetToNatural 100 3).width = 100 ∧
    (resetToNatural 100 3).height ≠
      ((jsRound ((resetToNatural 100 3).width / 3) : ℤ) : ℚ) := by
  norm_num [resetToNatural, jsRound]

/-- Claim C7 — amended: `resetToNatural` sets the width to
min(naturalWidth, 600) and the height to exactly width / aspectRatio, stored
without rounding (equivalently `height * aspectRatio = width` for a nonzero
ratio); it equals round(width / aspectRatio) only when that quotient is an
integer. -/
theorem c7_reset_amended (naturalWidth aspect : ℚ) (ha : aspect ≠ 0) :
    (resetToNatural naturalWidth aspect).width = min naturalWidth 600 ∧
    (resetToNatural naturalWidth aspect).height * aspect =
      (resetToNatural naturalWidth aspect).width := by
  refine ⟨rfl, ?_⟩
  simp only [resetToNatural]
  exact div_mul_cancel₀ _ ha

theorem c7_reset_amended_witness :
    (resetToNatural 100 3).width = min 100 600 ∧
    (resetToNatural 100 3).height * 3 = (resetToNatural 100 3).width :=
  c7_reset_amended 100 3 (by norm_num)

/-- Claim C8 — counterexample: a zero-delta drag is not the identity for
every anchor.  With anchor 30 × 30 the southeast corner clamps both axes to
the 50 floor, and with the non-integral anchor width 201/2 the rounding step
changes it to 101. -/
theorem c8_zero_drag_cex :
    handleMouseMove .se ⟨30, 30⟩ 1 0 0 false ≠ ⟨30, 30⟩ ∧
    handleMouseMove .se ⟨201 / 2, 100⟩ 1 0 0 false ≠ ⟨201 / 2, 100⟩ := by
  norm_num [handleMouseMove, rawDims, isCorner, jsRound, Dimensions.mk.injEq]

/-- Claim C8 — amended: for every corner handle, a zero-delta update without
the aspect-lock modifier is the identity on every anchor whose width and
height are integers that are at least 50 (the clamp and the rounding are
then both no-ops); anchors below the 50 floor are clamped up and
non-integral anchors are rounded. -/
theorem c8_zero_drag_amended (h : Handle) (hc : isCorner h = true)
    (w ht : ℤ) (aspect : ℚ) (hw : 50 ≤ w) (hh : 50 ≤ ht) :
    handleMouseMove h ⟨(w : ℚ), (ht : ℚ)⟩ aspect 0 0 false =
      ⟨(w : ℚ), (ht : ℚ)⟩ := by
  have hw' : (50 : ℚ) ≤ (w : ℚ) := by exact_mod_cast hw
  have hh' : (50 : ℚ) ≤ (ht : ℚ) := by exact_mod_cast hh
  cases h <;> simp only [isCorner, Bool.false_eq_true] at hc <;>
    (simp only [handleMouseMove, rawDims, Bool.false_and, Bool.false_eq_true, if_false,
       add_zero, sub_zero]
     rw [max_eq_right hw', max_eq_right hh', jsRound_intCast, jsRound_intCast])

theorem c8_zero_drag_amended_witness :
    handleMouseMove .se ⟨((200 : ℤ) : ℚ), ((100 : ℤ) : ℚ)⟩ 2 0 0 false =
      ⟨((200 : ℤ) : ℚ), ((100 : ℤ) : ℚ)⟩ :=
  c8_zero_drag_amended .se rfl 200 100 2 (by norm_num) (by norm_num)

/-- Claim C10 — confirmed: during a shift-constrained corner update the
width axis drives (the height is derived as width / aspectRatio) exactly
when |deltaX| is strictly greater than |deltaY|; on a tie the else branch
runs, the height axis drives and the width is derived as
height * aspectRatio. -/
theorem c10_shift_drive_axis (h : Handle) (hc : isCorner h = true)
    (start : Dimensions) (aspect dx dy : ℚ) :
    (|dx| > |dy| → handleMouseMove h start aspect dx dy true =
      ⟨((jsRound (rawDims h start aspect dx dy).1 : ℤ) : ℚ),
       ((jsRound ((rawDims h start aspect dx dy).1 / aspect) : ℤ) : ℚ)⟩) ∧
    (|dx| = |dy| → handleMouseMove h start aspect dx dy true =
      ⟨((jsRound ((rawDims h start aspect dx dy).2 * aspect) : ℤ) : ℚ),
       ((jsRound (rawDims h start aspect dx dy).2 : ℤ) : ℚ)⟩) := by
  constructor
  · intro hgt
    simp only [handleMouseMove, hc, Bool.and_true, if_pos, if_true, hgt]
  · intro heq
    have hngt : ¬ |dx| > |dy| := by rw [heq]; exact lt_irrefl _
    simp only [handleMouseMove, hc, Bool.and_true, if_pos, if_true, hngt, if_false]

theorem c10_shift_drive_axis_witness :
    handleMouseMove .se ⟨200, 100⟩ 2 10 3 true =
      ⟨((jsRound (rawDims .se ⟨200, 100⟩ 2 10 3).1 : ℤ) : ℚ),
       ((jsRound ((rawDims .se ⟨200, 100⟩ 2 10 3).1 / 2) : ℤ) : ℚ)⟩ :=
  (c10_shift_drive_axis .se rfl ⟨200, 100⟩ 2 10 3).1 (by norm_num)

theorem hasSub_nil (l : List Char) : hasSub [] l = true := by
  cases l <;> simp [hasSub, leadsWith]

theorem leadsWith_append (n a b : List Char) (h : leadsWith n a = true) :
    leadsWith n (a ++ b) = true := by
  induction n generalizing a with
  | nil => rfl
  | cons c cs ih =>
    cases a with
    | nil => simp [leadsWith] at h
    | cons x xs =>
      simp only [leadsWith, Bool.and_eq_true, beq_iff_eq] at h
      simp only [List.cons_append, leadsWith, Bool.and_eq_true, beq_iff_eq]
      exact ⟨h.1, ih xs h.2⟩

theorem hasSub_append (n a b : List Char) (h : hasSub n a = true) :
    hasSub n (a ++ b) = true := by
  induction a with
  | nil =>
    cases n with
    | nil => exact hasSub_nil b
    | cons c cs => simp [hasSub, leadsWith] at h
  | cons x xs ih =>
    simp only [hasSub, Bool.or_eq_true] at h
    simp only [List.cons_append, hasSub, Bool.or_eq_true]
    rcases h with h1 | h2
    · have h3 := leadsWith_append n (x :: xs) b h1
      simp only [List.cons_append] at h3
      exact Or.inl h3
    · exact Or.inr (ih h2)

theorem timeout_in_timeoutMessage (t : Nat) :
    containsSubstr (timeoutMessage t) "timeout" = true := by
  unfold containsSubstr timeoutMessage
  rw [String.data_append]
  exact hasSub_append _ _ _ rfl

theorem classifyStatus_ne_loaded (msg : String) : classifyStatus msg ≠ .loaded := by
  unfold classifyStatus
  split <;> simp

theorem performFontLoad_surfaced (d : CustomFontDefinition) (t : Nat)
    (outcome : LoadOutcome) :
    ((performFontLoad d t outcome).status = .loaded ∧
      (performFontLoad d t outcome).error = none) ∨
    ((performFontLoad d t outcome).status ≠ .loaded ∧
      (performFontLoad d t outcome).error.isSome = true) := by
  cases outcome with
  | success => exact Or.inl ⟨rfl, rfl⟩
  | failure msg => exact Or.inr ⟨(classifyStatus_ne_loaded msg : (performFontLoad d t (.failure msg)).status ≠ .loaded), rfl⟩
  | timedOut => exact Or.inr ⟨(classifyStatus_ne_loaded (timeoutMessage t) : (performFontLoad d t .timedOut).status ≠ .loaded), rfl⟩

theorem planResult_surfaced (o : Nat → LoadOutcome) (p : LoadPlan) :
    ((planResult o p).status = .loaded ∧ (planResult o p).error = none) ∨
    ((planResult o p).status ≠ .loaded ∧ (planResult o p).error.isSome = true) := by
  cases p with
  | alreadyLoaded f => exact Or.inl ⟨rfl, rfl⟩
  | unsupported f => exact Or.inr ⟨(fun hx => nomatch hx), rfl⟩
  | attach pr => exact performFontLoad_surfaced pr.defn pr.timeout _
  | startNew pr => exact performFontLoad_surfaced pr.defn pr.timeout _

theorem planResult_agree (o o' : Nat → LoadOutcome) (p : LoadPlan)
    (h : ∀ q, planPid p = some q → o q = o' q) :
    planResult o p = planResult o' p := by
  cases p with
  | alreadyLoaded f => rfl
  | unsupported f => rfl
  | attach pr => simp [planResult, h pr.pid rfl]
  | startNew pr => simp [planResult, h pr.pid rfl]

theorem loadFont_fst (supported : Bool) (s : LoaderState) (d : CustomFontDefinition)
    (t : Nat) (o : Nat → LoadOutcome) :
    (loadFont supported s d t o).1 = planResult o (loadFontStart supported s d t).1 := by
  rcases hh : loadFontStart supported s d t with ⟨plan, s'⟩
  cases plan <;> simp [loadFont, hh, planResult]

theorem loadFontsStarts_length (supported : Bool) (t : Nat)
    (s : LoaderState) (ds : List CustomFontDefinition) :
    ((loadFontsStarts supported t s ds).1).length = ds.length := by
  induction ds generalizing s with
  | nil => rfl
  | cons d ds ih => simp [loadFontsStarts, ih]

theorem loadFontStart_fresh (s : LoaderState) (d : CustomFontDefinition) (t : Nat)
    (hl : s.loadedFonts.lookup d.fontFamily = none)
    (hp : s.loadingPromises.lookup d.fontFamily = none) :
    loadFontStart true s d t =
      (.startNew ⟨s.nextPid, d, t⟩,
       { s with loadingPromises := (d.fontFamily, ⟨s.nextPid, d, t⟩) :: s.loadingPromises,
                nextPid := s.nextPid + 1 }) := by
  simp [loadFontStart, hl, hp]

/-- Claim C3 — confirmed: starting a load for a fresh family registers one
in-flight promise (the id counter advances once); a second `load` for the
same family while that promise is in flight attaches to the very same
promise record, leaves the registry state untouched (no second underlying
load is started), and its eventual result is equal to the first caller's
result. -/
theorem c3_dedup (s : LoaderState) (d d' : CustomFontDefinition) (t t' : Nat)
    (o : Nat → LoadOutcome) (hfam : d'.fontFamily = d.fontFamily)
    (hl : s.loadedFonts.lookup d.fontFamily = none)
    (hp : s.loadingPromises.lookup d.fontFamily = none) :
    (loadFontStart true s d t).1 = .startNew ⟨s.nextPid, d, t⟩ ∧
    (loadFontStart true (loadFontStart true s d t).2 d' t').1 = .attach ⟨s.nextPid, d, t⟩ ∧
    (loadFontStart true (loadFontStart true s d t).2 d' t').2 = (loadFontStart true s d t).2 ∧
    (loadFontStart true s d t).2.nextPid = s.nextPid + 1 ∧
    planResult o (loadFontStart true (loadFontStart true s d t).2 d' t').1 =
      planResult o (loadFontStart true s d t).1 := by
  have h1 := loadFontStart_fresh s d t hl hp
  have h2 : loadFontStart true (loadFontStart true s d t).2 d' t' =
      (.attach ⟨s.nextPid, d, t⟩, (loadFontStart true s d t).2) := by
    rw [h1]
    simp [loadFontStart, hfam, hl, List.lookup]
  refine ⟨by rw [h1], by rw [h2], by rw [h2], by rw [h1], ?_⟩
  rw [h2, h1]
  rfl

theorem c3_dedup_witness :
    (loadFontStart true emptyLoader dA 5000).1 = .startNew ⟨0, dA, 5000⟩ ∧
    (loadFontStart true (loadFontStart true emptyLoader dA 5000).2 dAalt 1000).1 =
      .attach ⟨0, dA, 5000⟩ ∧
    (loadFontStart true (loadFontStart true emptyLoader dA 5000).2 dAalt 1000).2 =
      (loadFontStart true emptyLoader dA 5000).2 ∧
    (loadFontStart true emptyLoader dA 5000).2.nextPid = 0 + 1 ∧
    planResult oGood (loadFontStart true (loadFontStart true emptyLoader dA 5000).2 dAalt 1000).1 =
      planResult oGood (loadFontStart true emptyLoader dA 5000).1 :=
  c3_dedup emptyLoader dA dAalt 5000 1000 oGood rfl rfl rfl

/-- Claim C4 — confirmed: when the timeout timer settles the race first,
the caller's result has status `timeout` and its error string (the timer's
rejection message `Font loading timeout after ...ms`) contains the word
"timeout". -/
theorem c4_timeout_status (s : LoaderState) (d : CustomFontDefinition) (t : Nat)
    (o : Nat → LoadOutcome)
    (hl : s.loadedFonts.lookup d.fontFamily = none)
    (hp : s.loadingPromises.lookup d.fontFamily = none)
    (ho : o s.nextPid = .timedOut) :
    (loadFont true s d t o).1.status = .timeout ∧
    containsSubstr (((loadFont true s d t o).1.error).getD "") "timeout" = true := by
  have h2 : (loadFont true s d t o).1 = performFontLoad d t (o s.nextPid) := by
    rw [loadFont_fst, loadFontStart_fresh s d t hl hp]
    rfl
  rw [h2, ho]
  constructor
  · simp [performFontLoad, classifyStatus, timeout_in_timeoutMessage t]
  · simp only [performFontLoad, Option.getD_some]
    exact timeout_in_timeoutMessage t

theorem c4_timeout_status_witness :
    (loadFont true emptyLoader dA 5000 (fun _ => .timedOut)).1.status = .timeout ∧
    containsSubstr (((loadFont true emptyLoader dA 5000 (fun _ => .timedOut)).1.error).getD "")
      "timeout" = true :=
  c4_timeout_status emptyLoader dA 5000 (fun _ => .timedOut) rfl rfl rfl

/-- Claim C9 — confirmed: when the family is already in the loaded-fonts
registry, `load` returns `{fontFamily, status: loaded}` with no error,
leaves the state (registry, in-flight map and promise counter) unchanged
and starts no load, whatever the descriptor's other attributes, the
timeout, the outcome environment, or even the capability flag. -/
theorem c9_already_loaded (supported : Bool) (s : LoaderState)
    (d : CustomFontDefinition) (t : Nat) (o : Nat → LoadOutcome) (ff : FontFaceRec)
    (h : s.loadedFonts.lookup d.fontFamily = some ff) :
    loadFont supported s d t o = (⟨d.fontFamily, .loaded, none⟩, s) := by
  have h1 : loadFontStart supported s d t = (.alreadyLoaded d.fontFamily, s) := by
    simp [loadFontStart, h]
  simp [loadFont, h1, planResult]

theorem c9_already_loaded_witness :
    loadFont false loadedStateA dAalt 1000 oGood = (⟨"FontA", .loaded, none⟩, loadedStateA) :=
  c9_already_loaded false loadedStateA dAalt 1000 oGood (mkFontFace dA) rfl

/-- Claim C5 — confirmed: every `load` and every entry of a `loadMany`
batch yields a result value rather than an exception, with every
non-loaded outcome carrying an error message; the batch keeps one result
per descriptor, and the i-th batch result depends only on the outcome of
the promise its own plan references, so another descriptor's failure
neither blocks, cancels, nor alters it. -/
theorem c5_loadMany_isolation (supported : Bool) (s : LoaderState) (t : Nat)
    (ds : List CustomFontDefinition) (d : CustomFontDefinition)
    (o o' : Nat → LoadOutcome) (i : Nat)
    (hagree : ∀ q,
      planPid (((loadFontsStarts supported t s ds).1).getD i (.alreadyLoaded "")) = some q →
      o q = o' q) :
    (loadFonts supported s t o ds).length = ds.length ∧
    (∀ r ∈ loadFonts supported s t o ds,
      (r.status = .loaded ∧ r.error = none) ∨
      (r.status ≠ .loaded ∧ r.error.isSome = true)) ∧
    (((loadFont supported s d t o).1.status = .loaded ∧
        (loadFont supported s d t o).1.error = none) ∨
      ((loadFont supported s d t o).1.status ≠ .loaded ∧
        (loadFont supported s d t o).1.error.isSome = true)) ∧
    (loadFonts supported s t o ds).getD i ⟨"", .loaded, none⟩ =
      (loadFonts supported s t o' ds).getD i ⟨"", .loaded, none⟩ := by
  refine ⟨?_, ?_, ?_, ?_⟩
  · simp [loadFonts, loadFontsStarts_length]
  · intro r hr
    simp only [loadFonts, List.mem_map] at hr
    obtain ⟨p, hp, rfl⟩ := hr
    exact planResult_surfaced o p
  · rw [loadFont_fst]
    exact planResult_surfaced o _
  · have e1 : (loadFonts supported s t o ds).getD i (⟨"", .loaded, none⟩ : FontLoadResult) =
        planResult o (((loadFontsStarts supported t s ds).1).getD i (.alreadyLoaded "")) := by
      simp only [loadFonts]
      exact List.getD_map ((loadFontsStarts supported t s ds).1)
        (LoadPlan.alreadyLoaded "") (planResult o)
    have e2 : (loadFonts supported s t o' ds).getD i (⟨"", .loaded, none⟩ : FontLoadResult) =
        planResult o' (((loadFontsStarts supported t s ds).1).getD i (.alreadyLoaded "")) := by
      simp only [loadFonts]
      exact List.getD_map ((loadFontsStarts supported t s ds).1)
        (LoadPlan.alreadyLoaded "") (planResult o')
    rw [e1, e2]
    exact planResult_agree o o' _ hagree

theorem c5_loadMany_isolation_witness :
    (loadFonts true emptyLoader 5000 oFail [dA, dB]).length = [dA, dB].length ∧
    (∀ r ∈ loadFonts true emptyLoader 5000 oFail [dA, dB],
      (r.status = .loaded ∧ r.error = none) ∨
      (r.status ≠ .loaded ∧ r.error.isSome = true)) ∧
    (((loadFont true emptyLoader dA 5000 oFail).1.status = .loaded ∧
        (loadFont true emptyLoader dA 5000 oFail).1.error = none) ∨
      ((loadFont true emptyLoader dA 5000 oFail).1.status ≠ .loaded ∧
        (loadFont true emptyLoader dA 5000 oFail).1.error.isSome = true)) ∧
    (loadFonts true emptyLoader 5000 oFail [dA, dB]).getD 1 ⟨"", .loaded, none⟩ =
      (loadFonts true emptyLoader 5000 oGood [dA, dB]).getD 1 ⟨"", .loaded, none⟩ :=
  c5_loadMany_isolation true emptyLoader 5000 [dA, dB] dA oFail oGood 1 (by
    intro q hq
    have hplan : (((loadFontsStarts true 5000 emptyLoader [dA, dB]).1).getD 1
        (LoadPlan.alreadyLoaded "")) = .startNew ⟨1, dB, 5000⟩ := rfl
    rw [hplan] at hq
    simp only [planPid, Option.some.injEq] at hq
    subst hq
    rfl)

/-- Claim C6 — confirmed: with no explicit format the format is
auto-detected from the source URL's file extension, mapping woff2, woff,
ttf, otf and eot to woff2, woff, truetype, opentype and embedded-opentype
respectively, any other extension defaulting to truetype; in particular
"a.woff2" detects as woff2 and "b.ttf" as truetype. -/
theorem c6_format_detection :
    detectFontFormat "a.woff2" = "woff2" ∧
    detectFontFormat "b.ttf" = "truetype" ∧
    (∀ src, extensionOf src = "woff2" → detectFontFormat src = "woff2") ∧
    (∀ src, extensionOf src = "woff" → detectFontFormat src = "woff") ∧
    (∀ src, extensionOf src = "ttf" → detectFontFormat src = "truetype") ∧
    (∀ src, extensionOf src = "otf" → detectFontFormat src = "opentype") ∧
    (∀ src, extensionOf src = "eot" → detectFontFormat src = "embedded-opentype") ∧
    (∀ src, extensionOf src ∉ (["woff2", "woff", "ttf", "otf", "eot"] : List String) →
      detectFontFormat src = "truetype") := by
  refine ⟨rfl, rfl, ?_, ?_, ?_, ?_, ?_, ?_⟩ <;> intro src h
  · simp [detectFontFormat, h]
  · simp [detectFontFormat, h]
  · simp [detectFontFormat, h]
  · simp [detectFontFormat, h]
  · simp [detectFontFormat, h]
  · simp only [List.mem_cons, List.not_mem_nil, or_false, not_or] at h
    obtain ⟨h1, h2, h3, h4, h5⟩ := h
    simp [detectFontFormat, h1, h2, h3, h4, h5]

theorem c6_format_detection_witness :
    detectFontFormat "z.otf" = "opentype" :=
  c6_format_detection.2.2.2.2.2.1 "z.otf" rfl
